import Mathlib

/-!
Verification development for the CAREamics LVAE core: configuration
validation (`careamics/config/vae_algorithm_model.py`), the LVAE loss
engine (`careamics/losses/lvae/losses.py`), the numerically-stable
distribution utilities (`careamics/models/lvae/utils.py`) and the
prediction utilities (`careamics/prediction_utils/lvae_prediction.py`).

Python floats are modelled as exact rationals extended with a NaN element
(`PFloat`); tensors are nested lists of such values; fallible code returns
`Except`; a raised exception is an `Except.error`.  Infinities are outside
the model: the properties under study only exercise finite values and NaN
propagation.
-/

/-! ## Configuration layer (`careamics/config/vae_algorithm_model.py`) -/

/-- Embedding of `SupportedAlgorithm` restricted to the literals accepted by
`VAEAlgorithmConfig.algorithm`. -/
inductive SupportedAlgorithm where
  | musplit
  | denoisplit
  | custom
deriving DecidableEq, Repr

/-- Embedding of `SupportedLoss` restricted to the literals accepted by
`VAEAlgorithmConfig.loss`. -/
inductive SupportedLoss where
  | musplit
  | denoisplit
  | denoisplit_musplit
deriving DecidableEq, Repr

/-- Python value of a `predict_logvar` attribute.  The validators compare the
flag against `None` and against the Gaussian likelihood's flag, so the
embedding only needs the `None` / `False` / `True` distinction. -/
inductive PyPredictLogvar where
  | pyNone
  | pyFalse
  | pyTrue
deriving DecidableEq, Repr

/-- Embedding of `GaussianMixtureNmModel` (`careamics/config/nm_model.py`):
only the fields with structural content are kept; the validators under study
use these records solely through the length of the list that holds them. -/
structure GaussianMixtureNmModel where
  n_gaussian : Nat := 1
  n_coeff : Nat := 2
deriving DecidableEq, Repr

/-- Embedding of `NMModel` (`careamics/config/nm_model.py`), the aggregate of
per-channel noise models.  `vae_algorithm_model.py` refers to this class under
the name `MultiChannelNmModel`. -/
structure NMModel where
  noise_models : List GaussianMixtureNmModel
deriving DecidableEq, Repr

/-- Modelled from the spec: `GaussianLikelihoodModel`
(`careamics/config/likelihood_model.py` is not among the sources).  Per the
spec's data model, it carries a `predict_logvar` flag that must match the
model's flag. -/
structure GaussianLikelihoodModel where
  predict_logvar : PyPredictLogvar
deriving DecidableEq, Repr

/-- Embedding of the `LVAEModel` architecture record restricted to the two
attributes read by the `VAEAlgorithmConfig` validators: `predict_logvar`
(compared against `None` and against the Gaussian likelihood's flag) and
`output_channels` (compared against the noise-model count).  The remaining
fields of `careamics/config/architectures/lvae_model.py` (filter counts,
dropout rates, nonlinearity, ...) are never read by those validators. -/
structure LVAEModel where
  predict_logvar : PyPredictLogvar := .pyFalse
  output_channels : Nat := 1
deriving DecidableEq, Repr

/-- Embedding of `VAEAlgorithmConfig` restricted to the fields read by its
three model validators; `optimizer` and `lr_scheduler` are never read by
them. -/
structure VAEAlgorithmConfig where
  algorithm : SupportedAlgorithm
  loss : SupportedLoss
  model : LVAEModel
  noise_model : Option NMModel := none
  noise_model_likelihood_model : Option Unit := none
  gaussian_likelihood_model : Option GaussianLikelihoodModel := none
deriving DecidableEq, Repr

/-- Embedding of `VAEAlgorithmConfig.algorithm_cross_validation`.  The three
`raise` sites are linearized in source order; note that the second branch
raises exactly when `loss` is `denoisplit` or `denoisplit_musplit` (the
source tests `if self.loss in [...]`, not `not in`), which makes the third
branch unreachable. -/
def algorithm_cross_validation (c : VAEAlgorithmConfig) :
    Except String VAEAlgorithmConfig :=
  if c.algorithm = SupportedAlgorithm.musplit ∧ c.loss ≠ SupportedLoss.musplit then
    Except.error "Algorithm musplit only supports loss musplit."
  else if c.algorithm = SupportedAlgorithm.denoisplit ∧
      (c.loss = SupportedLoss.denoisplit ∨ c.loss = SupportedLoss.denoisplit_musplit) then
    Except.error "Algorithm denoisplit only supports loss denoisplit or denoisplit_musplit."
  else if c.algorithm = SupportedAlgorithm.denoisplit ∧ c.loss = SupportedLoss.denoisplit ∧
      c.model.predict_logvar ≠ PyPredictLogvar.pyNone then
    Except.error "Algorithm denoisplit with loss denoisplit only supports predict_logvar as None."
  else
    Except.ok c

/-- Embedding of `VAEAlgorithmConfig.output_channels_validation`.  The source
unconditionally evaluates `len(self.noise_model.noise_models)`, so a config
whose optional `noise_model` is `None` raises an `AttributeError`; otherwise
the `assert` raises exactly when the counts differ. -/
def output_channels_validation (c : VAEAlgorithmConfig) :
    Except String VAEAlgorithmConfig :=
  match c.noise_model with
  | none => Except.error "AttributeError: NoneType object has no attribute noise_models"
  | some nm =>
    if c.model.output_channels = nm.noise_models.length then
      Except.ok c
    else
      Except.error "Number of output channels must match the number of noise models."

/-- Truth value of a Python assert statement whose argument is written as the
parenthesized pair `(condition, message,)`: the argument is then a 2-element
tuple, and a non-empty tuple is truthy regardless of the condition, so the
assertion never fires. -/
def assertTupleHolds (_cond : Bool) (_msg : String) : Bool :=
  true

/-- Embedding of `VAEAlgorithmConfig.predict_logvar_validation`.  The source
evaluates `self.gaussian_likelihood_model.predict_logvar` unconditionally, so
a config whose optional `gaussian_likelihood_model` is `None` raises an
`AttributeError`; otherwise the assert's argument is the 2-tuple
`(condition, message,)` and therefore always truthy (see
`assertTupleHolds`). -/
def predict_logvar_validation (c : VAEAlgorithmConfig) :
    Except String VAEAlgorithmConfig :=
  match c.gaussian_likelihood_model with
  | none => Except.error "AttributeError: NoneType object has no attribute predict_logvar"
  | some glm =>
    if assertTupleHolds (decide (c.model.predict_logvar = glm.predict_logvar))
        "Model predict_logvar must match Gaussian likelihood model predict_logvar." then
      Except.ok c
    else
      Except.error "Model predict_logvar must match Gaussian likelihood model predict_logvar."

/-- Full `VAEAlgorithmConfig` validation: pydantic runs the three
`mode="after"` model validators in definition order. -/
def vaeAlgorithmConfig_validate (c : VAEAlgorithmConfig) :
    Except String VAEAlgorithmConfig :=
  algorithm_cross_validation c >>= output_channels_validation >>= predict_logvar_validation

/-! ## Float model: exact rationals extended with NaN -/

/-- Model of a Python/torch floating-point scalar: an exact rational or NaN.
Arithmetic on NaN propagates it; division by zero yields NaN (the claims under
study never distinguish infinities from NaN, and the spec itself equates
"non-finite" with NaN). -/
inductive PFloat where
  | nan
  | val (q : ℚ)
deriving DecidableEq, Repr

namespace PFloat

/-- Addition with NaN propagation. -/
def add : PFloat → PFloat → PFloat
  | val a, val b => val (a + b)
  | _, _ => nan

/-- Multiplication with NaN propagation. -/
def mul : PFloat → PFloat → PFloat
  | val a, val b => val (a * b)
  | _, _ => nan

/-- Negation with NaN propagation. -/
def neg : PFloat → PFloat
  | val a => val (-a)
  | nan => nan

/-- Division: NaN propagates and division by zero is outside the finite
model, collapsed to NaN. -/
def div : PFloat → PFloat → PFloat
  | val a, val b => if b = 0 then nan else val (a / b)
  | _, _ => nan

instance : Add PFloat := ⟨add⟩

instance : Mul PFloat := ⟨mul⟩

instance : Neg PFloat := ⟨neg⟩

instance : Div PFloat := ⟨div⟩

/-- Embedding of `torch.isnan` on a scalar. -/
def isnan : PFloat → Bool
  | nan => true
  | val _ => false

/-- Embedding of `torch.clamp(x, min=m)` on a scalar: clamping propagates
NaN. -/
def clampMin (m : ℚ) : PFloat → PFloat
  | nan => nan
  | val q => val (max q m)

end PFloat

/-- Embedding of `tensor.sum()`: the sum of an empty tensor is `0.0`, and any
NaN entry poisons the result. -/
def psum (l : List PFloat) : PFloat :=
  l.foldl PFloat.add (PFloat.val 0)

/-- Embedding of `tensor.mean()` over a flat list: sum divided by element
count (the mean of an empty tensor is NaN, as in torch). -/
def meanList (l : List PFloat) : PFloat :=
  psum l / PFloat.val l.length

/-! ## Free-bits KL (`free_bits_kl`, `careamics/models/lvae/utils.py`) -/

/-- Embedding of `kl.mean(0)` for a KL tensor of shape `(B, n_layers)`: the
tensor is a list of `B` rows of length `n_layers`, and the result has one
entry per layer, the mean over the batch. -/
def meanDim0 (kl : List (List PFloat)) : List PFloat :=
  (List.range (kl.headD []).length).map
    (fun j => meanList (kl.map (fun row => row.getD j PFloat.nan)))

/-- Embedding of `free_bits_kl(kl, free_bits, batch_average, eps)`: if
`free_bits < eps` return the per-layer batch mean; otherwise clamp after the
mean when `batch_average` is set, and clamp elementwise before the mean when
it is not. -/
def free_bits_kl (kl : List (List PFloat)) (free_bits : ℚ)
    (batch_average : Bool := false) (eps : ℚ := 1/1000000) : List PFloat :=
  if free_bits < eps then
    meanDim0 kl
  else if batch_average then
    (meanDim0 kl).map (PFloat.clampMin free_bits)
  else
    meanDim0 (kl.map (fun row => row.map (PFloat.clampMin free_bits)))

/-! ## Tensors and the reconstruction loss (`careamics/losses/lvae/losses.py`) -/

/-- A batched tensor of shape `(B, C, [Z], Y, X)`: a list of `B` samples, each
a list of `C` channels, each a flat list of spatial values (the spatial
dimensions are flattened, which is faithful because every operation under
study treats them uniformly). -/
abbrev Tensor3 := List (List (List PFloat))

/-- A batched tensor of shape `(B, [Z], Y, X)` (one channel selected). -/
abbrev Tensor2 := List (List PFloat)

/-- Elementwise negation of a `(B, C, P)` tensor (`-1 * ll` and `-ll`). -/
def tensorNeg3 (t : Tensor3) : Tensor3 :=
  t.map (fun s => s.map (fun c => c.map PFloat.neg))

/-- Elementwise negation of a `(B, P)` tensor. -/
def tensorNeg2 (t : Tensor2) : Tensor2 :=
  t.map (fun c => c.map PFloat.neg)

/-- The channel count `t.shape[1]` of a `(B, C, P)` tensor. -/
def chCount (t : Tensor3) : Nat :=
  (t.headD []).length

/-- The channel slice `t[:, i]` of a `(B, C, P)` tensor. -/
def channelSlice (t : Tensor3) (i : Nat) : Tensor2 :=
  t.map (fun s => s.getD i [])

/-- Embedding of `compute_batch_mean` (`careamics/models/lvae/utils.py`),
`x.view(N, -1).mean(dim=1)`, at shape `(B, C, P)`: per-sample mean over all
remaining entries. -/
def compute_batch_mean3 (x : Tensor3) : List PFloat :=
  x.map (fun s => meanList s.flatten)

/-- Embedding of `compute_batch_mean` at shape `(B, P)` (applied to a channel
slice). -/
def compute_batch_mean2 (x : Tensor2) : List PFloat :=
  x.map (fun s => meanList s)

/-- Embedding of `_get_weighted_likelihood`: with both weights left at their
default `1` the log-likelihood is returned unchanged (the early return, the
only branch exercised by `_get_reconstruction_loss_vector`); otherwise channel
0 is scaled by the first weight, channel 1 by the second, and any further
channel is zeroed by the masks. -/
def _get_weighted_likelihood (ll : Tensor3) (ch1_recons_w : ℚ := 1)
    (ch2_recons_w : ℚ := 1) : Tensor3 :=
  if ch1_recons_w = 1 ∧ ch2_recons_w = 1 then
    ll
  else
    ll.map (fun s => (List.range s.length).map (fun j =>
      (s.getD j []).map (fun x =>
        x * (if j = 0 then PFloat.val 1 else PFloat.val 0) * PFloat.val ch1_recons_w +
        x * (if j = 1 then PFloat.val 1 else PFloat.val 0) * PFloat.val ch2_recons_w)))

/-- Key of the Python loss dictionary: `"loss"` or `f"ch{i}_loss"`.  The
format string is injective in `i`, so the embedding uses a tagged key type in
place of strings. -/
inductive LossKey where
  | loss
  | ch (i : Nat)
deriving DecidableEq, Repr

/-- A value stored in the loss dictionary: a 0-dimensional tensor (after the
sum/normalize step) or a `(B,)` vector (before it). -/
inductive TVal where
  | scal (x : PFloat)
  | vec (xs : List PFloat)
deriving DecidableEq, Repr

/-- A Python dict with `LossKey` keys: association list in insertion order. -/
abbrev LossDict := List (LossKey × TVal)

/-- Python dict assignment `d[k] = v`: overwrite in place or append. -/
def dictSet (d : LossDict) (k : LossKey) (v : TVal) : LossDict :=
  match d with
  | [] => [(k, v)]
  | (k', v') :: rest => if k' = k then (k, v) :: rest else (k', v') :: dictSet rest k v

/-- Python dict lookup `d[k]`. -/
def dictGet (d : LossDict) (k : LossKey) : Option TVal :=
  match d with
  | [] => none
  | (k', v') :: rest => if k' = k then some v' else dictGet rest k

/-- Embedding of `_get_reconstruction_loss_vector`: evaluates the likelihood,
applies the (identity) channel weighting, and fills the dictionary with the
per-sample loss vector and the per-channel vectors.  The initial dictionary of
`None` placeholders in the source is immediately rebound and is therefore not
modelled.  With a single target channel, the `ch1_loss` and `ch2_loss` keys
both receive the full per-sample loss vector (the source marks this branch as
a hack); the source's `assert ll.shape[1] == 1` restricts that branch to
single-channel likelihoods. -/
def _get_reconstruction_loss_vector (reconstruction target : Tensor3)
    (likelihood_obj : Tensor3 → Tensor3 → Tensor3) : LossDict :=
  let ll := _get_weighted_likelihood (likelihood_obj reconstruction target)
  let lossVec := compute_batch_mean3 (tensorNeg3 ll)
  let output : LossDict := [(.loss, .vec lossVec)]
  if 1 < chCount ll then
    (List.range' 1 (chCount target)).foldl
      (fun d i =>
        dictSet d (.ch i) (.vec (compute_batch_mean2 (tensorNeg2 (channelSlice ll (i - 1))))))
      output
  else
    dictSet (dictSet output (.ch 1) (.vec lossVec)) (.ch 2) (.vec lossVec)

/-- Boolean-mask indexing `xs[mask]` on a `(B,)` vector. -/
def maskSelect (xs : List PFloat) (mask : List Bool) : List PFloat :=
  ((xs.zip mask).filter (fun p => p.2)).map (fun p => p.1)

/-- One aggregation statement of `get_reconstruction_loss`:
`loss_dict[key] = loss_dict[key][splitting_mask].sum() / len(reconstruction)`.
The source always finds a `(B,)` vector at the key; any other content is left
unchanged. -/
def maskedBatchAgg (mask : List Bool) (B : Nat) (d : LossDict) (k : LossKey) : LossDict :=
  match dictGet d k with
  | some (.vec xs) => dictSet d k (.scal (psum (maskSelect xs mask) / PFloat.val B))
  | _ => d

/-- Embedding of `get_reconstruction_loss`: computes the per-sample loss
dictionary, defaults the splitting mask to all `True` of the batch length
(`torch.ones_like(loss_dict["loss"]).bool()`), then masks, sums, and divides
by the batch size the overall loss and each channel loss
`ch1_loss ... ch{target.shape[1]}_loss`. -/
def get_reconstruction_loss (reconstruction target : Tensor3)
    (likelihood_obj : Tensor3 → Tensor3 → Tensor3)
    (splitting_mask : Option (List Bool) := none) : LossDict :=
  let loss_dict := _get_reconstruction_loss_vector reconstruction target likelihood_obj
  let mask := match splitting_mask with
    | none =>
      List.replicate
        (match dictGet loss_dict .loss with
         | some (.vec xs) => xs.length
         | _ => 0) true
    | some m => m
  let d1 := maskedBatchAgg mask reconstruction.length loss_dict .loss
  (List.range' 1 (chCount target)).foldl
    (fun d i => maskedBatchAgg mask reconstruction.length d (.ch i)) d1

/-! ## Composite losses (`careamics/losses/lvae/losses.py`) -/

/-- The top-down layer data consumed by the KL losses: the per-layer `(B,)`
KL vectors (`td_data["kl"]`), and for each layer the shape `[1:]` of its
sampled latent `td_data["z"][i]`, which the muSplit KL reads only through the
product of its entries (the normalization factor). -/
structure TopDownData where
  kl : List (List PFloat)
  zShapes : List (List Nat)

/-- Embedding of
`torch.cat([kl_layer.unsqueeze(1) for kl_layer in td["kl"]], dim=1)`: the
`(B, n_layers)` matrix whose row `i` collects entry `i` of every layer. -/
def klCat (td : TopDownData) : List (List PFloat) :=
  (List.range (td.kl.headD []).length).map
    (fun i => td.kl.map (fun layer => layer.getD i PFloat.nan))

/-- Embedding of `get_kl_divergence_loss_usplit`: normalize each layer's KL
column by the element count of that layer's latent tensor, apply
`free_bits_kl` with threshold `0.0` (a no-op floor), and average over
layers. -/
def get_kl_divergence_loss_usplit (td : TopDownData) : PFloat :=
  let kl := klCat td
  let norms : List ℚ := td.zShapes.map (fun s => (s.prod : ℚ))
  let klNorm := kl.map (fun row => (row.zip norms).map (fun p => p.1 / PFloat.val p.2))
  meanList (free_bits_kl klNorm 0)

/-- Embedding of `get_kl_divergence_loss_denoisplit`: apply `free_bits_kl`
with threshold `1.0` to the raw `(B, n_layers)` KL matrix, sum over layers,
and divide by the element count of the input image's spatial shape (`Tensor3`
stores the spatial dimensions flattened, so `np.prod(img_shape)` is passed as
that element count). -/
def get_kl_divergence_loss_denoisplit (td : TopDownData) (img_numel : Nat) : PFloat :=
  psum (free_bits_kl (klCat td) 1) / PFloat.val img_numel

/-- The flattened spatial element count `prod(t.shape[2:])` of a `(B, C, P)`
tensor. -/
def spatialNumel (t : Tensor3) : Nat :=
  ((t.headD []).headD []).length

/-- Embedding of `tensor.mean()` over a whole `(B, C, P)` tensor. -/
def meanAll (t : Tensor3) : PFloat :=
  meanList t.flatten.flatten

/-- Modelled from the spec: `get_kl_weight`
(`careamics/losses/lvae/loss_utils.py` is not among the sources).  Per spec
section 4.2: the configured `kl_weight` unmodified unless annealing is
enabled; when enabled, `0` before the start epoch, the full weight after
`start + annealtime`, and a linear ramp in between. -/
def get_kl_weight (kl_annealing : Bool) (kl_start kl_annealtime : Int)
    (kl_weight : ℚ) (current_epoch : Int) : ℚ :=
  if kl_annealing then
    if current_epoch < kl_start then 0
    else if kl_start + kl_annealtime ≤ current_epoch then kl_weight
    else kl_weight * ((current_epoch - kl_start : Int) : ℚ) / ((kl_annealtime : Int) : ℚ)
  else kl_weight

/-- The loss-parameters bundle (`LVAELossParameters`,
`careamics/losses/loss_factory.py` is not among the sources): exactly the
attributes the three composite loss functions read.  The likelihood objects
are abstracted as functions `(prediction, target) -> log-likelihood tensor`,
their only use in `losses.py`. -/
structure LVAELossParameters where
  likelihood : Tensor3 → Tensor3 → Tensor3
  noise_model_likelihood : Tensor3 → Tensor3 → Tensor3
  gaussian_likelihood : Tensor3 → Tensor3 → Tensor3
  mask : Option (List Bool) := none
  reconstruction_weight : ℚ := 1
  kl_annealing : Bool := false
  kl_start : Int := -1
  kl_annealtime : Int := 10
  kl_weight : ℚ := 1
  current_epoch : Int := 0
  non_stochastic : Bool := false
  denoisplit_weight : ℚ := 1
  musplit_weight : ℚ := 1

/-- The dictionary returned by a composite loss: keys `loss`,
`reconstruction_loss` and `kl_loss` (`detach` is the identity in this
model). -/
structure LossOutput where
  loss : PFloat
  reconstruction_loss : PFloat
  kl_loss : PFloat
deriving DecidableEq, Repr

/-- Reading a scalar entry of the aggregated loss dictionary (the composite
losses only read keys that hold 0-dimensional tensors after aggregation). -/
def getScal (d : LossDict) (k : LossKey) : PFloat :=
  match dictGet d k with
  | some (.scal x) => x
  | _ => PFloat.nan

/-- Embedding of `musplit_loss`: reconstruction loss (NaN replaced by `0.0`),
annealed KL weight times the muSplit KL, and `None` exactly when the combined
total is NaN.  There is no `non_stochastic` branch in this function. -/
def musplit_loss (model_outputs : Tensor3 × TopDownData) (targets : Tensor3)
    (loss_parameters : LVAELossParameters) : Option LossOutput :=
  let predictions := model_outputs.1
  let td_data := model_outputs.2
  let recons_loss_dict := get_reconstruction_loss predictions targets
    loss_parameters.likelihood loss_parameters.mask
  let recons_loss0 := getScal recons_loss_dict .loss *
    PFloat.val loss_parameters.reconstruction_weight
  let recons_loss := if recons_loss0.isnan then PFloat.val 0 else recons_loss0
  let kl_weight := get_kl_weight loss_parameters.kl_annealing loss_parameters.kl_start
    loss_parameters.kl_annealtime loss_parameters.kl_weight loss_parameters.current_epoch
  let kl_loss := PFloat.val kl_weight * get_kl_divergence_loss_usplit td_data
  let net_loss := recons_loss + kl_loss
  if net_loss.isnan then
    none
  else
    some { loss := net_loss, reconstruction_loss := recons_loss, kl_loss := kl_loss }

/-- Embedding of `denoisplit_loss`: like `musplit_loss` but with the
denoiSplit KL (normalized by the input image's spatial element count), and a
`non_stochastic` branch fixing the KL term at zero. -/
def denoisplit_loss (model_outputs : Tensor3 × TopDownData) (targets : Tensor3)
    (loss_parameters : LVAELossParameters) : Option LossOutput :=
  let predictions := model_outputs.1
  let td_data := model_outputs.2
  let recons_loss_dict := get_reconstruction_loss predictions targets
    loss_parameters.likelihood loss_parameters.mask
  let recons_loss0 := getScal recons_loss_dict .loss *
    PFloat.val loss_parameters.reconstruction_weight
  let recons_loss := if recons_loss0.isnan then PFloat.val 0 else recons_loss0
  let kl_loss :=
    if loss_parameters.non_stochastic then
      PFloat.val 0
    else
      PFloat.val (get_kl_weight loss_parameters.kl_annealing loss_parameters.kl_start
        loss_parameters.kl_annealtime loss_parameters.kl_weight
        loss_parameters.current_epoch) *
      get_kl_divergence_loss_denoisplit td_data (spatialNumel targets)
  let net_loss := recons_loss + kl_loss
  if net_loss.isnan then
    none
  else
    some { loss := net_loss, reconstruction_loss := recons_loss, kl_loss := kl_loss }

/-- Embedding of `reconstruction_loss_musplit_denoisplit`: if the prediction
has twice the target's channels, only the first half (the means) feeds the
noise-model likelihood; the Gaussian likelihood always receives the full
prediction; the result is the weighted sum of the two negated means. -/
def reconstruction_loss_musplit_denoisplit (predictions targets : Tensor3)
    (nm_likelihood gaussian_likelihood : Tensor3 → Tensor3 → Tensor3)
    (nm_weight gaussian_weight : ℚ) : PFloat :=
  let out_mean :=
    if chCount predictions = 2 * chCount targets then
      predictions.map (fun s => s.take (s.length / 2))
    else
      predictions
  let recons_loss_nm := -(meanAll (nm_likelihood out_mean targets))
  let recons_loss_gm := -(meanAll (gaussian_likelihood predictions targets))
  PFloat.val nm_weight * recons_loss_nm + PFloat.val gaussian_weight * recons_loss_gm

/-- Embedding of `denoisplit_musplit_loss`: weighted two-likelihood
reconstruction loss (NaN replaced by `0.0`), combined denoiSplit and muSplit
KL re-scaled by `kl_weight` unless `non_stochastic` fixes it at zero, and
`None` exactly when the combined total is NaN. -/
def denoisplit_musplit_loss (model_outputs : Tensor3 × TopDownData) (targets : Tensor3)
    (loss_parameters : LVAELossParameters) : Option LossOutput :=
  let predictions := model_outputs.1
  let td_data := model_outputs.2
  let recons_loss0 := reconstruction_loss_musplit_denoisplit predictions targets
    loss_parameters.noise_model_likelihood loss_parameters.gaussian_likelihood
    loss_parameters.denoisplit_weight loss_parameters.musplit_weight
  let recons_loss := if recons_loss0.isnan then PFloat.val 0 else recons_loss0
  let kl_loss :=
    if loss_parameters.non_stochastic then
      PFloat.val 0
    else
      PFloat.val loss_parameters.kl_weight *
        (PFloat.val loss_parameters.denoisplit_weight *
          get_kl_divergence_loss_denoisplit td_data (spatialNumel targets) +
         PFloat.val loss_parameters.musplit_weight *
          get_kl_divergence_loss_usplit td_data)
  let net_loss := recons_loss + kl_loss
  if net_loss.isnan then
    none
  else
    some { loss := net_loss, reconstruction_loss := recons_loss, kl_loss := kl_loss }

/-! ## Stable distribution utilities (`careamics/models/lvae/utils.py`) -/

/-- The positive filter of `StableExponential.posneg_separation`
(`tensor > 0`), elementwise as an indicator.  All operations of the class are
elementwise, so scalar real-valued embeddings capture them; the true
exponential and logarithm are idealized as `Real.exp` / `Real.log`. -/
noncomputable def pos_f (x : ℝ) : ℝ :=
  if 0 < x then 1 else 0

/-- The negative filter (`tensor <= 0`), elementwise as an indicator. -/
noncomputable def neg_f (x : ℝ) : ℝ :=
  if x ≤ 0 then 1 else 0

/-- The positive part `torch.clip(tensor, min=0)`. -/
noncomputable def pos_data (x : ℝ) : ℝ :=
  max x 0

/-- The negative part `torch.clip(tensor, max=0)`. -/
noncomputable def neg_data (x : ℝ) : ℝ :=
  min x 0

/-- Embedding of `StableExponential.exp`:
`torch.exp(neg_data) * neg_f + (1 + pos_data) * pos_f` - the true exponential
on the non-positive partition and the linear surrogate `1 + x` on the
positive partition. -/
noncomputable def StableExponential.exp (x : ℝ) : ℝ :=
  Real.exp (neg_data x) * neg_f x + (1 + pos_data x) * pos_f x

/-- Embedding of `StableExponential.log`:
`neg_data * neg_f + torch.log(1 + pos_data) * pos_f`. -/
noncomputable def StableExponential.log (x : ℝ) : ℝ :=
  neg_data x * neg_f x + Real.log (1 + pos_data x) * pos_f x

/-- Embedding of `StableLogVar.get_var`: the stabilized variance
`StableExponential(lv).exp() + eps` when `enable_stable` (default `True`,
`var_eps` default `1e-6`), and the ordinary exponential otherwise. -/
noncomputable def StableLogVar.get_var (lv : ℝ) (enable_stable : Bool := true)
    (var_eps : ℝ := 1/1000000) : ℝ :=
  if enable_stable then StableExponential.exp lv + var_eps else Real.exp lv

/-- Embedding of `StableLogVar.get`: the raw log-variance when stabilization
is off, and `torch.log(self.get_var())` otherwise. -/
noncomputable def StableLogVar.get (lv : ℝ) (enable_stable : Bool := true)
    (var_eps : ℝ := 1/1000000) : ℝ :=
  if enable_stable then Real.log (StableLogVar.get_var lv enable_stable var_eps) else lv

/-! ## Prediction utilities (`careamics/prediction_utils/lvae_prediction.py`) -/

/-- The LVAE model as the black box the prediction utilities call: `target_ch`
and the forward pass.  Stochastic sampling under a fixed random state is
modelled by an explicit draw counter: the `i`-th forward pass on an input
returns `forward input i` (`model.eval()` and `torch.no_grad()` have no
observable effect in this model).  Prediction tensors are NaN-free, so they
are plain rational lists. -/
structure LVAE where
  target_ch : Nat
  forward : List ℚ → Nat → List ℚ

/-- Embedding of `_pure_lvae_predict_single_sample`: run the model's forward
pass (at the given draw of the random state) and split the output through the
likelihood's `get_mean_lv` into a sample prediction and an optional
log-variance. -/
def _pure_lvae_predict_single_sample (model : LVAE)
    (get_mean_lv : List ℚ → List ℚ × Option (List ℚ))
    (input : List ℚ) (draw : Nat) : List ℚ × Option (List ℚ) :=
  get_mean_lv (model.forward input draw)

/-- Embedding of `lvae_predict_single_sample`.  The bare-tensor input and the
tuple-with-auxiliary input are embedded uniformly as a tensor plus an
auxiliary list (empty for the bare case); the source's `len(aux) == 0` early
return and its aux-reattachment branch then coincide, including the
log-variance rule `(log_var, *aux) if log_var is not None else None`.  The
single sample uses the current random state, i.e. draw `0`. -/
def lvae_predict_single_sample {α : Type} (model : LVAE)
    (get_mean_lv : List ℚ → List ℚ × Option (List ℚ))
    (x : List ℚ) (aux : List α) :
    (List ℚ × List α) × Option (List ℚ × List α) :=
  let sp := _pure_lvae_predict_single_sample model get_mean_lv x 0
  ((sp.1, aux), sp.2.map (fun lv => (lv, aux)))

/-- Embedding of `torch.mean(sample_predictions, dim=0)` over a non-empty
stack of uniformly-shaped samples (the preallocated zeros buffer filled by
the loop is the stack itself). -/
def stackMean (ts : List (List ℚ)) : List ℚ :=
  match ts with
  | [] => []
  | t :: rest =>
    (rest.foldl (fun acc s => List.zipWith (fun a b => a + b) acc s) t).map
      (fun q => q / ((t :: rest).length : ℚ))

/-- Embedding of `lvae_predict_mmse`: raises for `mmse_count <= 0`, otherwise
runs `mmse_count` sequential stochastic forward passes (draws `0, 1, ...`),
keeps only the log-variance of the first sample, and averages the stacked
sample predictions. -/
def lvae_predict_mmse {α : Type} (model : LVAE)
    (get_mean_lv : List ℚ → List ℚ × Option (List ℚ))
    (x : List ℚ) (aux : List α) (mmse_count : Int) :
    Except String ((List ℚ × List α) × Option (List ℚ × List α)) :=
  if mmse_count ≤ 0 then
    Except.error "MMSE count must be greater than zero."
  else
    let samples := (List.range mmse_count.toNat).map
      (fun i => _pure_lvae_predict_single_sample model get_mean_lv x i)
    let log_var := match samples with
      | [] => none
      | s :: _ => s.2
    let mmse_prediction := stackMean (samples.map (fun s => s.1))
    Except.ok ((mmse_prediction, aux), log_var.map (fun lv => (lv, aux)))

/-- Unfolding lemma: addition of finite values. -/
theorem PFloat.val_add_val (a b : ℚ) : PFloat.val a + PFloat.val b = PFloat.val (a + b) := rfl

/-- Unfolding lemma: multiplication of finite values. -/
theorem PFloat.val_mul_val (a b : ℚ) : PFloat.val a * PFloat.val b = PFloat.val (a * b) := rfl

/-- Unfolding lemma: negation of a finite value. -/
theorem PFloat.neg_val (a : ℚ) : -PFloat.val a = PFloat.val (-a) := rfl

/-- Unfolding lemma: division of finite values. -/
theorem PFloat.val_div_val (a b : ℚ) :
    PFloat.val a / PFloat.val b = if b = 0 then PFloat.nan else PFloat.val (a / b) := rfl

/-- The embedded tensor sum of a NaN-free tensor is the rational sum. -/
theorem psum_map_val (l : List ℚ) : psum (l.map PFloat.val) = PFloat.val l.sum := by
  suffices h : ∀ a : ℚ, (l.map PFloat.val).foldl PFloat.add (PFloat.val a) =
      PFloat.val (a + l.sum) by
    simpa [psum] using h 0
  induction l with
  | nil => intro a; simp
  | cons x xs ih =>
    intro a
    simp only [List.map_cons, List.foldl_cons, PFloat.add, List.sum_cons]
    rw [ih]
    ring_nf

/-- The per-layer batch mean of a NaN-free `(B, L)` tensor, in exact rational
arithmetic. -/
theorem meanDim0_map_val (Q : List (List ℚ)) (L : ℕ) (hB : Q ≠ [])
    (hL : ∀ r ∈ Q, r.length = L) :
    meanDim0 (Q.map (fun r => r.map PFloat.val)) =
      (List.range L).map
        (fun j => PFloat.val ((Q.map (fun r => r.getD j 0)).sum / (Q.length : ℚ))) := by
  obtain ⟨r₀, Q', rfl⟩ := List.exists_cons_of_ne_nil hB
  have hlen : ((r₀ :: Q').map (fun r => r.map PFloat.val)).headD [] = r₀.map PFloat.val := by
    simp
  unfold meanDim0
  rw [hlen, List.length_map, hL r₀ (List.mem_cons_self r₀ Q')]
  refine List.map_congr_left ?_
  intro j hj
  have hjL : j < L := List.mem_range.mp hj
  have hcol : ((r₀ :: Q').map (fun r => r.map PFloat.val)).map
      (fun row => row.getD j PFloat.nan) =
      ((r₀ :: Q').map (fun r => r.getD j 0)).map PFloat.val := by
    rw [List.map_map, List.map_map]
    refine List.map_congr_left ?_
    intro r hr
    have hjr : j < r.length := by rw [hL r hr]; exact hjL
    simp [Function.comp, List.getD_eq_getElem?_getD, List.getElem?_map,
      List.getElem?_eq_getElem hjr]
  rw [hcol]
  have hBnat : (r₀ :: Q').length ≠ 0 := by simp
  have hBpos : ((r₀ :: Q').length : ℚ) ≠ 0 := Nat.cast_ne_zero.mpr hBnat
  simp only [meanList, psum_map_val, List.length_map]
  show PFloat.div _ _ = _
  simp only [PFloat.div]
  rw [if_neg hBpos]

/-- C7: for a NaN-free KL tensor of shape `(B, n_layers)` with `B > 0`:
`free_bits_kl` with `free_bits = 0` (below the tolerance `eps`) returns the
plain per-layer batch mean, one entry per layer; with `free_bits = ε` at or
above the tolerance every output entry is a rational at least `ε`; and with
`batch_average = True` it clamps after averaging, i.e. it returns the plain
per-layer batch mean with the clamp applied outside. -/
theorem c7_free_bits_kl_spec (Q : List (List ℚ)) (L : ℕ) (ε eps : ℚ)
    (hB : Q ≠ []) (hL : ∀ r ∈ Q, r.length = L) (heps : 0 < eps) (hε : ¬ ε < eps) :
    (free_bits_kl (Q.map (fun r => r.map PFloat.val)) 0 false eps =
      (List.range L).map
        (fun j => PFloat.val ((Q.map (fun r => r.getD j 0)).sum / (Q.length : ℚ))))
    ∧ (∀ x ∈ free_bits_kl (Q.map (fun r => r.map PFloat.val)) ε false eps,
        ∃ q : ℚ, x = PFloat.val q ∧ ε ≤ q)
    ∧ free_bits_kl (Q.map (fun r => r.map PFloat.val)) ε true eps =
        (free_bits_kl (Q.map (fun r => r.map PFloat.val)) 0 false eps).map
          (PFloat.clampMin ε) := by
  refine ⟨?_, ?_, ?_⟩
  · rw [free_bits_kl, if_pos heps]
    exact meanDim0_map_val Q L hB hL
  · intro x hx
    rw [free_bits_kl, if_neg hε] at hx
    simp only [Bool.false_eq_true, if_false] at hx
    have hclamp : (Q.map (fun r => r.map PFloat.val)).map
        (fun row => row.map (PFloat.clampMin ε)) =
        (Q.map (fun r => r.map (fun q => max q ε))).map (fun r => r.map PFloat.val) := by
      simp [List.map_map, Function.comp, PFloat.clampMin]
    rw [hclamp] at hx
    have hB' : Q.map (fun r => r.map (fun q => max q ε)) ≠ [] := by
      simpa using hB
    have hL' : ∀ r ∈ Q.map (fun r => r.map (fun q => max q ε)), r.length = L := by
      intro r hr
      obtain ⟨s, hs, rfl⟩ := List.mem_map.mp hr
      simpa using hL s hs
    rw [meanDim0_map_val _ L hB' hL'] at hx
    obtain ⟨j, hj, rfl⟩ := List.mem_map.mp hx
    have hjL : j < L := List.mem_range.mp hj
    refine ⟨_, rfl, ?_⟩
    set S := (Q.map (fun r => r.map (fun q => max q ε))).map (fun r => r.getD j 0) with hS
    have hmem : ∀ x ∈ S, ε ≤ x := by
      intro x hxS
      obtain ⟨r, hr, rfl⟩ := List.mem_map.mp hxS
      obtain ⟨s, hs, rfl⟩ := List.mem_map.mp hr
      have hjr : j < s.length := by rw [hL s hs]; exact hjL
      have : (s.map (fun q => max q ε)).getD j 0 = max s[j] ε := by
        simp [List.getD_eq_getElem?_getD, List.getElem?_map, List.getElem?_eq_getElem hjr]
      rw [this]
      exact le_max_right _ _
    have hlenS : S.length = Q.length := by simp [hS]
    have hsum : (S.length : ℚ) * ε ≤ S.sum := by
      have := List.card_nsmul_le_sum S ε hmem
      rwa [nsmul_eq_mul] at this
    have hQpos : (0 : ℚ) < (Q.length : ℚ) := by
      have hne : Q.length ≠ 0 := fun h => hB (List.length_eq_zero.mp h)
      exact_mod_cast Nat.pos_of_ne_zero hne
    simp only [List.length_map]
    rw [le_div_iff₀ hQpos, mul_comm]
    rw [← hlenS]
    exact hsum
  · rw [free_bits_kl, if_neg hε, free_bits_kl, if_pos heps]
    simp

/-- Witness for C7: the KL tensor `[[2]]` (batch 1, one layer) with
`free_bits = 0` yields the plain batch mean `[2]`; with `free_bits = 1` every
output entry is a rational at least `1`; with `batch_average = True` the
output is the clamped batch mean `[2]`. -/
theorem c7_free_bits_kl_witness :
    (free_bits_kl [[PFloat.val 2]] 0 false (1/1000000) = [PFloat.val 2])
    ∧ (∃ q : ℚ, PFloat.val 2 = PFloat.val q ∧ 1 ≤ q)
    ∧ (free_bits_kl [[PFloat.val 2]] 1 true (1/1000000) = [PFloat.val 2]) := by
  have h := c7_free_bits_kl_spec [[(2 : ℚ)]] 1 1 (1/1000000) (by decide)
    (by intro r hr; simp at hr; simp [hr]) (by norm_num) (by norm_num)
  have hr : List.range 1 = [0] := rfl
  refine ⟨?_, ?_, ?_⟩
  · have h1 := h.1
    simp only [List.map_cons, List.map_nil] at h1
    rw [h1]
    norm_num [List.getD, hr]
  · refine h.2.1 (PFloat.val 2) ?_
    norm_num [free_bits_kl, meanDim0, meanList, psum, PFloat.clampMin, PFloat.add,
      PFloat.val_div_val, List.getD, hr]
  · have h3 := h.2.2
    have h1 := h.1
    simp only [List.map_cons, List.map_nil] at h1 h3
    rw [h3, h1]
    norm_num [List.getD, hr, PFloat.clampMin]

/-! ### Claims C1, C2, C6 -/

/-- C1: the claim states that with `algorithm = denoisplit` validation
succeeds when `loss` is `denoisplit` or `denoisplit_musplit` and raises for
any other loss.  The code's membership test is inverted (`if self.loss in
[...]` instead of `not in`), so it raises exactly on the two supported losses
- contradicting its own error message - and passes on `musplit`.  This
theorem evaluates the embedded validator on the three loss values for a
`denoisplit` configuration. -/
theorem c1_denoisplit_loss_check_inverted :
    (algorithm_cross_validation
      { algorithm := .denoisplit, loss := .denoisplit,
        model := { predict_logvar := .pyNone, output_channels := 2 },
        noise_model := some { noise_models := [{}, {}] },
        gaussian_likelihood_model := some { predict_logvar := .pyNone } }
      = Except.error
        "Algorithm denoisplit only supports loss denoisplit or denoisplit_musplit.")
    ∧ (algorithm_cross_validation
      { algorithm := .denoisplit, loss := .denoisplit_musplit,
        model := { predict_logvar := .pyNone, output_channels := 2 },
        noise_model := some { noise_models := [{}, {}] },
        gaussian_likelihood_model := some { predict_logvar := .pyNone } }
      = Except.error
        "Algorithm denoisplit only supports loss denoisplit or denoisplit_musplit.")
    ∧ (algorithm_cross_validation
      { algorithm := .denoisplit, loss := .musplit,
        model := { predict_logvar := .pyNone, output_channels := 2 },
        noise_model := some { noise_models := [{}, {}] },
        gaussian_likelihood_model := some { predict_logvar := .pyNone } }
      = Except.ok
      { algorithm := .denoisplit, loss := .musplit,
        model := { predict_logvar := .pyNone, output_channels := 2 },
        noise_model := some { noise_models := [{}, {}] },
        gaussian_likelihood_model := some { predict_logvar := .pyNone } }) := by
  refine ⟨?_, ?_, ?_⟩ <;> rfl

/-- C2: the claim states that validation raises whenever the model's
`predict_logvar` differs from the Gaussian likelihood's `predict_logvar`.
The source applies `assert` to the parenthesized 2-tuple
`(condition, message,)`, which is always truthy, so the check never raises:
full validation of a config whose two flags differ succeeds.  This theorem
evaluates both the single validator and the full validation chain on such a
mismatched configuration (which satisfies every other validator). -/
theorem c2_predict_logvar_mismatch_not_caught :
    (predict_logvar_validation
      { algorithm := .custom, loss := .musplit,
        model := { predict_logvar := .pyTrue, output_channels := 1 },
        noise_model := some { noise_models := [{}] },
        gaussian_likelihood_model := some { predict_logvar := .pyNone } }
      = Except.ok
      { algorithm := .custom, loss := .musplit,
        model := { predict_logvar := .pyTrue, output_channels := 1 },
        noise_model := some { noise_models := [{}] },
        gaussian_likelihood_model := some { predict_logvar := .pyNone } })
    ∧ (vaeAlgorithmConfig_validate
      { algorithm := .custom, loss := .musplit,
        model := { predict_logvar := .pyTrue, output_channels := 1 },
        noise_model := some { noise_models := [{}] },
        gaussian_likelihood_model := some { predict_logvar := .pyNone } }
      = Except.ok
      { algorithm := .custom, loss := .musplit,
        model := { predict_logvar := .pyTrue, output_channels := 1 },
        noise_model := some { noise_models := [{}] },
        gaussian_likelihood_model := some { predict_logvar := .pyNone } })
    ∧ (PyPredictLogvar.pyTrue ≠ PyPredictLogvar.pyNone) := by
  exact ⟨rfl, rfl, by decide⟩

/-- C6: for every `(output_channels, noise-model count)` pair - embedded in a
configuration that satisfies the other validators (`algorithm = custom`
imposes no loss pairing, and both optional sub-models are present) - full
validation succeeds if and only if the model's declared output-channel count
equals the number of per-channel noise models; otherwise it returns the
raised error, at configuration-validation time, before any tensor
computation. -/
theorem c6_output_channels_validation_iff
    (l : SupportedLoss) (plm plg : PyPredictLogvar) (oc : Nat)
    (nms : List GaussianMixtureNmModel) :
    (vaeAlgorithmConfig_validate
      { algorithm := .custom, loss := l,
        model := { predict_logvar := plm, output_channels := oc },
        noise_model := some { noise_models := nms },
        gaussian_likelihood_model := some { predict_logvar := plg } }
      = Except.ok
      { algorithm := .custom, loss := l,
        model := { predict_logvar := plm, output_channels := oc },
        noise_model := some { noise_models := nms },
        gaussian_likelihood_model := some { predict_logvar := plg } })
      ↔ oc = nms.length := by
  unfold vaeAlgorithmConfig_validate algorithm_cross_validation
    output_channels_validation predict_logvar_validation
  by_cases h : oc = nms.length <;>
    simp [h, assertTupleHolds, Bind.bind, Except.bind]

/-! ### Dictionary and mask lemmas -/

/-- Looking up the key just assigned returns the assigned value. -/
theorem dictGet_dictSet_same (d : LossDict) (k : LossKey) (v : TVal) :
    dictGet (dictSet d k v) k = some v := by
  induction d with
  | nil => simp [dictSet, dictGet]
  | cons p rest ih =>
    obtain ⟨k', v'⟩ := p
    by_cases h : k' = k
    · simp [dictSet, dictGet, h]
    · simp only [dictSet, if_neg h, dictGet]
      exact ih

/-- Assigning one key leaves every other key unchanged. -/
theorem dictGet_dictSet_ne (d : LossDict) (k k' : LossKey) (v : TVal) (h : k' ≠ k) :
    dictGet (dictSet d k v) k' = dictGet d k' := by
  induction d with
  | nil => simp [dictSet, dictGet, Ne.symm h]
  | cons p rest ih =>
    obtain ⟨k₀, v₀⟩ := p
    by_cases h0 : k₀ = k
    · subst h0
      simp [dictSet, dictGet, Ne.symm h]
    · simp only [dictSet, if_neg h0, dictGet]
      by_cases h1 : k₀ = k'
      · simp [h1]
      · simp [h1, ih]

/-- The aggregation step only modifies its own key. -/
theorem dictGet_maskedBatchAgg_ne (mask : List Bool) (B : Nat) (d : LossDict)
    (k k' : LossKey) (h : k' ≠ k) :
    dictGet (maskedBatchAgg mask B d k) k' = dictGet d k' := by
  unfold maskedBatchAgg
  cases hdk : dictGet d k with
  | none => rfl
  | some v =>
    cases v with
    | scal x => rfl
    | vec xs => exact dictGet_dictSet_ne d k k' _ h

/-- The aggregation step rewrites its own key by masking, summing and
normalizing the stored vector. -/
theorem dictGet_maskedBatchAgg_same (mask : List Bool) (B : Nat) (d : LossDict)
    (k : LossKey) :
    dictGet (maskedBatchAgg mask B d k) k =
      match dictGet d k with
      | some (.vec xs) => some (.scal (psum (maskSelect xs mask) / PFloat.val B))
      | other => other := by
  unfold maskedBatchAgg
  cases hdk : dictGet d k with
  | none => simp [hdk]
  | some v =>
    cases v with
    | scal x => simp [hdk]
    | vec xs => simp [hdk, dictGet_dictSet_same]

/-- A fold whose steps each touch only their own `ch` key leaves any key
outside the folded index list unchanged. -/
theorem dictGet_foldl_ne (g : LossDict → Nat → LossDict)
    (hg : ∀ d i k', LossKey.ch i ≠ k' → dictGet (g d i) k' = dictGet d k')
    (l : List Nat) (d : LossDict) (k : LossKey) (hk : ∀ i ∈ l, LossKey.ch i ≠ k) :
    dictGet (l.foldl g d) k = dictGet d k := by
  induction l generalizing d with
  | nil => rfl
  | cons i rest ih =>
    rw [List.foldl_cons, ih _ (fun j hj => hk j (List.mem_cons_of_mem _ hj)),
      hg d i k (hk i (List.mem_cons_self _ _))]

/-- A fold whose steps each touch only their own `ch` key rewrites the key of
index `i` (occurring once in the list) by the step's own transformation of the
original value. -/
theorem dictGet_foldl_mem (g : LossDict → Nat → LossDict)
    (hg_ne : ∀ d i k', LossKey.ch i ≠ k' → dictGet (g d i) k' = dictGet d k')
    (F : Nat → Option TVal → Option TVal)
    (hg_self : ∀ d i, dictGet (g d i) (.ch i) = F i (dictGet d (.ch i)))
    (l : List Nat) (hnd : l.Nodup) (d : LossDict) (i : Nat) (hi : i ∈ l) :
    dictGet (l.foldl g d) (.ch i) = F i (dictGet d (.ch i)) := by
  induction l generalizing d with
  | nil => cases hi
  | cons j rest ih =>
    rw [List.foldl_cons]
    rcases List.mem_cons.mp hi with rfl | hmem
    · have hnotin : ∀ m ∈ rest, LossKey.ch m ≠ LossKey.ch i := by
        intro m hm hEq
        have hmi : m = i := by injection hEq
        exact (List.nodup_cons.mp hnd).1 (hmi ▸ hm)
      rw [dictGet_foldl_ne g hg_ne rest _ _ hnotin, hg_self]
    · have hne : i ≠ j := by
        intro hEq
        exact (List.nodup_cons.mp hnd).1 (hEq ▸ hmem)
      rw [ih (List.nodup_cons.mp hnd).2 _ hmem,
        hg_ne d j _ (fun hEq => hne (by injection hEq.symm))]

/-- Selecting with an all-`True` mask keeps every element. -/
theorem maskSelect_replicate_true (xs : List PFloat) :
    maskSelect xs (List.replicate xs.length true) = xs := by
  induction xs with
  | nil => rfl
  | cons x rest ih =>
    simp only [maskSelect, List.zip, List.length_cons, List.replicate_succ,
      List.zipWith_cons_cons, List.filter] at ih ⊢
    simp only [List.map_cons]
    rw [ih]

/-- Selecting with an all-`False` mask keeps nothing. -/
theorem maskSelect_replicate_false (xs : List PFloat) (n : Nat) :
    maskSelect xs (List.replicate n false) = [] := by
  induction xs generalizing n with
  | nil => simp [maskSelect]
  | cons x rest ih =>
    cases n with
    | zero => simp [maskSelect]
    | succ m =>
      simp only [maskSelect, List.replicate_succ, List.zip_cons_cons, List.filter] at ih ⊢
      exact ih m

/-! ### Structure of the reconstruction-loss dictionary -/

/-- The vector dictionary always stores the full per-sample loss vector under
`"loss"`. -/
theorem grlv_dictGet_loss (r t : Tensor3) (lik : Tensor3 → Tensor3 → Tensor3) :
    dictGet (_get_reconstruction_loss_vector r t lik) .loss =
      some (TVal.vec (compute_batch_mean3 (tensorNeg3 (_get_weighted_likelihood (lik r t))))) := by
  unfold _get_reconstruction_loss_vector
  by_cases hC : 1 < chCount (_get_weighted_likelihood (lik r t))
  · rw [if_pos hC]
    rw [dictGet_foldl_ne _ (fun d i k' h => dictGet_dictSet_ne d (.ch i) k' _ (Ne.symm h)) _ _ _
      (fun i _ h => by injection h)]
    rfl
  · rw [if_neg hC]
    rw [dictGet_dictSet_ne _ _ _ _ (by intro h; injection h),
      dictGet_dictSet_ne _ _ _ _ (by intro h; injection h)]
    rfl

/-- With at least `i` target channels (and a likelihood whose channel count
matches the target's), the vector dictionary stores a `(B,)` vector under
`ch{i}_loss`. -/
theorem grlv_dictGet_ch_vec (r t : Tensor3) (lik : Tensor3 → Tensor3 → Tensor3)
    (i : Nat) (h1 : 1 ≤ i) (hi : i ≤ chCount t)
    (hC : chCount (_get_weighted_likelihood (lik r t)) = chCount t) :
    ∃ v, dictGet (_get_reconstruction_loss_vector r t lik) (.ch i) = some (TVal.vec v) := by
  unfold _get_reconstruction_loss_vector
  by_cases hgt : 1 < chCount (_get_weighted_likelihood (lik r t))
  · rw [if_pos hgt]
    have hmem := dictGet_foldl_mem
      (fun d j => dictSet d (.ch j) (.vec (compute_batch_mean2 (tensorNeg2
        (channelSlice (_get_weighted_likelihood (lik r t)) (j - 1))))))
      (fun d j k' h => dictGet_dictSet_ne d (.ch j) k' _ (Ne.symm h))
      (fun j _ => some (TVal.vec (compute_batch_mean2 (tensorNeg2
        (channelSlice (_get_weighted_likelihood (lik r t)) (j - 1))))))
      (fun d j => dictGet_dictSet_same d (.ch j) _)
      (List.range' 1 (chCount t)) (List.nodup_range' _ _)
      [(LossKey.loss, TVal.vec (compute_batch_mean3 (tensorNeg3 (_get_weighted_likelihood (lik r t)))))]
      i (List.mem_range'_1.mpr ⟨h1, by omega⟩)
    exact ⟨_, hmem⟩
  · rw [if_neg hgt]
    have hct : chCount t ≤ 1 := hC ▸ not_lt.mp hgt
    have hi1 : i = 1 := le_antisymm (hi.trans hct) h1
    subst hi1
    rw [dictGet_dictSet_ne _ _ _ _ (by intro h; injection h; omega),
      dictGet_dictSet_same]
    exact ⟨_, rfl⟩

/-- C4: the aggregate reconstruction loss is `sum(masked loss)/batch_size`:
with a `None` mask or an all-`True` mask of batch length it equals
`sum(full per-sample loss)/batch_size`, and with an all-`False` mask the
aggregate loss and every per-channel `ch{i}_loss` of the target's channels
are exactly `0`. -/
theorem c4_get_reconstruction_loss_mask (reconstruction target : Tensor3)
    (lik : Tensor3 → Tensor3 → Tensor3) (LV : List PFloat) (B : Nat)
    (hB : reconstruction ≠ [])
    (hC : chCount (_get_weighted_likelihood (lik reconstruction target)) = chCount target)
    (hLV : LV = compute_batch_mean3 (tensorNeg3 (_get_weighted_likelihood (lik reconstruction target))))
    (hBlen : B = reconstruction.length) :
    (dictGet (get_reconstruction_loss reconstruction target lik none) .loss =
        some (TVal.scal (psum LV / PFloat.val B)))
    ∧ (dictGet (get_reconstruction_loss reconstruction target lik
          (some (List.replicate LV.length true))) .loss =
        some (TVal.scal (psum LV / PFloat.val B)))
    ∧ (dictGet (get_reconstruction_loss reconstruction target lik
          (some (List.replicate LV.length false))) .loss = some (TVal.scal (PFloat.val 0)))
    ∧ (∀ i, 1 ≤ i → i ≤ chCount target →
        dictGet (get_reconstruction_loss reconstruction target lik
          (some (List.replicate LV.length false))) (.ch i) = some (TVal.scal (PFloat.val 0))) := by
  subst hLV hBlen
  have hloss := grlv_dictGet_loss reconstruction target lik
  have hcast : ((reconstruction.length : ℚ)) ≠ 0 :=
    Nat.cast_ne_zero.mpr (fun h => hB (List.length_eq_zero.mp h))
  have hdiv : PFloat.val 0 / PFloat.val (reconstruction.length : ℚ) = PFloat.val 0 := by
    rw [PFloat.val_div_val, if_neg hcast, zero_div]
  have hfold_ne : ∀ (mask : List Bool) (d : LossDict),
      dictGet ((List.range' 1 (chCount target)).foldl
        (fun d i => maskedBatchAgg mask reconstruction.length d (.ch i)) d) .loss =
        dictGet d .loss :=
    fun mask d => dictGet_foldl_ne _
      (fun d i k' h => dictGet_maskedBatchAgg_ne _ _ d _ k' (Ne.symm h)) _ d _
      (fun i _ h => by injection h)
  have hmain : ∀ mask : List Bool,
      dictGet (get_reconstruction_loss reconstruction target lik (some mask)) .loss =
        some (TVal.scal (psum (maskSelect (compute_batch_mean3 (tensorNeg3
          (_get_weighted_likelihood (lik reconstruction target)))) mask) /
          PFloat.val reconstruction.length)) := by
    intro mask
    unfold get_reconstruction_loss
    rw [hfold_ne, dictGet_maskedBatchAgg_same, hloss]
  have hnone : get_reconstruction_loss reconstruction target lik none =
      get_reconstruction_loss reconstruction target lik
        (some (List.replicate (compute_batch_mean3 (tensorNeg3
          (_get_weighted_likelihood (lik reconstruction target)))).length true)) := by
    simp only [get_reconstruction_loss, hloss]
  refine ⟨?_, ?_, ?_, ?_⟩
  · rw [hnone, hmain, maskSelect_replicate_true]
  · rw [hmain, maskSelect_replicate_true]
  · rw [hmain, maskSelect_replicate_false]
    show some (TVal.scal (PFloat.val 0 / _)) = _
    rw [hdiv]
  · intro i h1 hi
    obtain ⟨v, hv⟩ := grlv_dictGet_ch_vec reconstruction target lik i h1 hi hC
    unfold get_reconstruction_loss
    rw [dictGet_foldl_mem _
      (fun d j k' h => dictGet_maskedBatchAgg_ne _ _ d _ k' (Ne.symm h))
      (fun j old => match old with
        | some (.vec xs) => some (TVal.scal (psum (maskSelect xs
            (List.replicate (compute_batch_mean3 (tensorNeg3
              (_get_weighted_likelihood (lik reconstruction target)))).length false)) /
            PFloat.val reconstruction.length))
        | other => other)
      (fun d j => dictGet_maskedBatchAgg_same _ _ d _)
      _ (List.nodup_range' _ _) _ i (List.mem_range'_1.mpr ⟨h1, by omega⟩),
      dictGet_maskedBatchAgg_ne _ _ _ _ _ (fun h => by injection h), hv]
    show some (TVal.scal (psum (maskSelect v _) / _)) = _
    rw [maskSelect_replicate_false]
    show some (TVal.scal (PFloat.val 0 / _)) = _
    rw [hdiv]

/-- With both weights at their default `1`, the channel weighting returns the
log-likelihood unchanged (the only branch the loss engine exercises). -/
theorem _get_weighted_likelihood_default (ll : Tensor3) :
    _get_weighted_likelihood ll = ll := by
  unfold _get_weighted_likelihood
  rw [if_pos ⟨rfl, rfl⟩]

/-- Witness for C4: batch 1, channel 1, one pixel, identity likelihood; the
`None`-mask aggregate loss is `-1`, the all-`False` aggregate loss and
`ch1_loss` are `0`. -/
theorem c4_get_reconstruction_loss_witness :
    (dictGet (get_reconstruction_loss [[[PFloat.val 1]]] [[[PFloat.val 0]]] (fun r _ => r) none)
        .loss = some (TVal.scal (PFloat.val (-1))))
    ∧ (dictGet (get_reconstruction_loss [[[PFloat.val 1]]] [[[PFloat.val 0]]] (fun r _ => r)
        (some [false])) .loss = some (TVal.scal (PFloat.val 0)))
    ∧ (dictGet (get_reconstruction_loss [[[PFloat.val 1]]] [[[PFloat.val 0]]] (fun r _ => r)
        (some [false])) (.ch 1) = some (TVal.scal (PFloat.val 0))) := by
  have h := c4_get_reconstruction_loss_mask [[[PFloat.val 1]]] [[[PFloat.val 0]]]
    (fun r _ => r) [PFloat.val (-1)] 1
    (by simp)
    (by rw [_get_weighted_likelihood_default]; rfl)
    (by
      rw [_get_weighted_likelihood_default]
      norm_num [compute_batch_mean3, tensorNeg3, meanList, psum, PFloat.add, PFloat.neg,
        PFloat.val_div_val])
    rfl
  refine ⟨?_, ?_, ?_⟩
  · rw [h.1]
    norm_num [psum, PFloat.add, PFloat.val_div_val]
  · exact h.2.2.1
  · exact h.2.2.2 1 (le_refl 1) (by norm_num [chCount])

/-- C10: with a single target channel (and a single-channel likelihood, as
the source's assert requires), the returned dictionary still contains a
`ch2_loss` key; after aggregation `ch1_loss` (and `loss`) hold the masked,
batch-normalized scalar while `ch2_loss` still holds the unreduced per-sample
`(B,)` vector, never masked nor divided by the batch size. -/
theorem c10_single_channel_ch2_vector (reconstruction target : Tensor3)
    (lik : Tensor3 → Tensor3 → Tensor3) (m : Option (List Bool))
    (LV : List PFloat) (mask : List Bool)
    (hct : chCount target = 1)
    (hC : chCount (_get_weighted_likelihood (lik reconstruction target)) = 1)
    (hLV : LV = compute_batch_mean3 (tensorNeg3 (_get_weighted_likelihood (lik reconstruction target))))
    (hmask : mask = match m with
      | none => List.replicate LV.length true
      | some mk => mk) :
    (dictGet (get_reconstruction_loss reconstruction target lik m) (.ch 2) =
        some (TVal.vec LV))
    ∧ (dictGet (get_reconstruction_loss reconstruction target lik m) (.ch 1) =
        some (TVal.scal (psum (maskSelect LV mask) / PFloat.val reconstruction.length)))
    ∧ (dictGet (get_reconstruction_loss reconstruction target lik m) .loss =
        some (TVal.scal (psum (maskSelect LV mask) / PFloat.val reconstruction.length))) := by
  subst hLV hmask
  have hloss := grlv_dictGet_loss reconstruction target lik
  have hd0 : _get_reconstruction_loss_vector reconstruction target lik =
      dictSet (dictSet [(.loss, .vec (compute_batch_mean3 (tensorNeg3
          (_get_weighted_likelihood (lik reconstruction target)))))]
        (.ch 1) (.vec (compute_batch_mean3 (tensorNeg3
          (_get_weighted_likelihood (lik reconstruction target))))))
        (.ch 2) (.vec (compute_batch_mean3 (tensorNeg3
          (_get_weighted_likelihood (lik reconstruction target))))) := by
    unfold _get_reconstruction_loss_vector
    rw [if_neg (by omega)]
  have hch1 : dictGet (_get_reconstruction_loss_vector reconstruction target lik) (.ch 1) =
      some (TVal.vec (compute_batch_mean3 (tensorNeg3
        (_get_weighted_likelihood (lik reconstruction target))))) := by
    rw [hd0, dictGet_dictSet_ne _ _ _ _ (by intro h; injection h; omega), dictGet_dictSet_same]
  have hch2 : dictGet (_get_reconstruction_loss_vector reconstruction target lik) (.ch 2) =
      some (TVal.vec (compute_batch_mean3 (tensorNeg3
        (_get_weighted_likelihood (lik reconstruction target))))) := by
    rw [hd0, dictGet_dictSet_same]
  have hr : List.range' 1 1 = [1] := rfl
  refine ⟨?_, ?_, ?_⟩
  · simp only [get_reconstruction_loss, hloss, hct, hr, List.foldl_cons, List.foldl_nil]
    rw [dictGet_maskedBatchAgg_ne _ _ _ _ _ (by intro h; injection h; omega),
      dictGet_maskedBatchAgg_ne _ _ _ _ _ (by intro h; injection h)]
    exact hch2
  · simp only [get_reconstruction_loss, hloss, hct, hr, List.foldl_cons, List.foldl_nil]
    rw [dictGet_maskedBatchAgg_same,
      dictGet_maskedBatchAgg_ne _ _ _ _ _ (by intro h; injection h), hch1]
    exact rfl
  · simp only [get_reconstruction_loss, hloss, hct, hr, List.foldl_cons, List.foldl_nil]
    rw [dictGet_maskedBatchAgg_ne _ _ _ _ _ (by intro h; injection h),
      dictGet_maskedBatchAgg_same, hloss]
    exact rfl

/-- Witness for C10: batch 1, single channel, identity likelihood, mask
`[True]`: `ch2_loss` holds the per-sample vector `[-1]` while `ch1_loss` and
`loss` hold the aggregated scalar `-1`. -/
theorem c10_single_channel_ch2_witness :
    (dictGet (get_reconstruction_loss [[[PFloat.val 1]]] [[[PFloat.val 0]]] (fun r _ => r)
        (some [true])) (.ch 2) = some (TVal.vec [PFloat.val (-1)]))
    ∧ (dictGet (get_reconstruction_loss [[[PFloat.val 1]]] [[[PFloat.val 0]]] (fun r _ => r)
        (some [true])) (.ch 1) = some (TVal.scal (PFloat.val (-1)))) := by
  have h := c10_single_channel_ch2_vector [[[PFloat.val 1]]] [[[PFloat.val 0]]]
    (fun r _ => r) (some [true]) [PFloat.val (-1)] [true]
    (by norm_num [chCount])
    (by rw [_get_weighted_likelihood_default]; rfl)
    (by
      rw [_get_weighted_likelihood_default]
      norm_num [compute_batch_mean3, tensorNeg3, meanList, psum, PFloat.add, PFloat.neg,
        PFloat.val_div_val])
    rfl
  refine ⟨h.1, ?_⟩
  rw [h.2.1]
  norm_num [maskSelect, psum, PFloat.add, PFloat.val_div_val]

/-! ### Composite-loss claims -/

/-- Unfolding lemma: `isnan` on a finite value. -/
theorem PFloat.isnan_val (q : ℚ) : (PFloat.val q).isnan = false := rfl

/-- Unfolding lemma: `isnan` on NaN. -/
theorem PFloat.isnan_nan : PFloat.nan.isnan = true := rfl

/-- Adding a finite zero on the left is the identity. -/
theorem PFloat.val_zero_add (x : PFloat) : PFloat.val 0 + x = x := by
  cases x with
  | nan => rfl
  | val q =>
    rw [PFloat.val_add_val]
    norm_num

/-- An if-then-else on `Option` is `none` exactly when its condition holds. -/
theorem option_if_none_iff {α : Type} (b : Bool) (x : α) :
    (if b = true then none else some x) = none ↔ b = true := by
  cases b <;> simp

/-- C3: each composite loss returns `None` exactly when the combined scalar
loss - the NaN-replaced reconstruction term plus the KL term - is NaN, and a
NaN reconstruction term alone is replaced by `0.0`, so with a non-NaN KL term
the function still returns the record (whose fields are the keys `loss`,
`reconstruction_loss`, `kl_loss`), with the reconstruction entry `0.0`. -/
theorem c3_composite_losses_none_iff_nan
    (predictions : Tensor3) (td : TopDownData) (targets : Tensor3)
    (p : LVAELossParameters) (Rm Km Kd Rg Kg : PFloat)
    (hRm : Rm = getScal (get_reconstruction_loss predictions targets p.likelihood p.mask)
      .loss * PFloat.val p.reconstruction_weight)
    (hKm : Km = PFloat.val (get_kl_weight p.kl_annealing p.kl_start p.kl_annealtime
      p.kl_weight p.current_epoch) * get_kl_divergence_loss_usplit td)
    (hKd : Kd = (if p.non_stochastic then PFloat.val 0
      else PFloat.val (get_kl_weight p.kl_annealing p.kl_start p.kl_annealtime
        p.kl_weight p.current_epoch) *
        get_kl_divergence_loss_denoisplit td (spatialNumel targets)))
    (hRg : Rg = reconstruction_loss_musplit_denoisplit predictions targets
      p.noise_model_likelihood p.gaussian_likelihood p.denoisplit_weight p.musplit_weight)
    (hKg : Kg = (if p.non_stochastic then PFloat.val 0
      else PFloat.val p.kl_weight *
        (PFloat.val p.denoisplit_weight *
          get_kl_divergence_loss_denoisplit td (spatialNumel targets) +
         PFloat.val p.musplit_weight * get_kl_divergence_loss_usplit td))) :
    (musplit_loss (predictions, td) targets p = none ↔
      ((if Rm.isnan then PFloat.val 0 else Rm) + Km).isnan = true)
    ∧ (Rm.isnan = true → Km.isnan = false →
        musplit_loss (predictions, td) targets p = some ⟨Km, PFloat.val 0, Km⟩)
    ∧ (denoisplit_loss (predictions, td) targets p = none ↔
        ((if Rm.isnan then PFloat.val 0 else Rm) + Kd).isnan = true)
    ∧ (Rm.isnan = true → Kd.isnan = false →
        denoisplit_loss (predictions, td) targets p = some ⟨Kd, PFloat.val 0, Kd⟩)
    ∧ (denoisplit_musplit_loss (predictions, td) targets p = none ↔
        ((if Rg.isnan then PFloat.val 0 else Rg) + Kg).isnan = true)
    ∧ (Rg.isnan = true → Kg.isnan = false →
        denoisplit_musplit_loss (predictions, td) targets p = some ⟨Kg, PFloat.val 0, Kg⟩) := by
  subst hRm hKm hKd hRg hKg
  refine ⟨?_, ?_, ?_, ?_, ?_, ?_⟩
  · simp only [musplit_loss]
    exact option_if_none_iff _ _
  · intro h1 h2
    cases hK : PFloat.val (get_kl_weight p.kl_annealing p.kl_start p.kl_annealtime
        p.kl_weight p.current_epoch) * get_kl_divergence_loss_usplit td with
    | nan => rw [hK] at h2; simp [PFloat.isnan] at h2
    | val k => simp [musplit_loss, h1, hK, PFloat.val_add_val, PFloat.isnan_val]
  · simp only [denoisplit_loss]
    exact option_if_none_iff _ _
  · intro h1 h2
    cases hK : (if p.non_stochastic then PFloat.val 0
        else PFloat.val (get_kl_weight p.kl_annealing p.kl_start p.kl_annealtime
          p.kl_weight p.current_epoch) *
          get_kl_divergence_loss_denoisplit td (spatialNumel targets)) with
    | nan => rw [hK] at h2; simp [PFloat.isnan] at h2
    | val k => simp [denoisplit_loss, h1, hK, PFloat.val_add_val, PFloat.isnan_val]
  · simp only [denoisplit_musplit_loss]
    exact option_if_none_iff _ _
  · intro h1 h2
    cases hK : (if p.non_stochastic then PFloat.val 0
        else PFloat.val p.kl_weight *
          (PFloat.val p.denoisplit_weight *
            get_kl_divergence_loss_denoisplit td (spatialNumel targets) +
           PFloat.val p.musplit_weight * get_kl_divergence_loss_usplit td)) with
    | nan => rw [hK] at h2; simp [PFloat.isnan] at h2
    | val k => simp [denoisplit_musplit_loss, h1, hK, PFloat.val_add_val, PFloat.isnan_val]

/-- The `+` notation on `PFloat` is `PFloat.add`. -/
theorem PFloat.add_eq (x y : PFloat) : x + y = PFloat.add x y := rfl

/-- The `*` notation on `PFloat` is `PFloat.mul`. -/
theorem PFloat.mul_eq (x y : PFloat) : x * y = PFloat.mul x y := rfl

/-- The `/` notation on `PFloat` is `PFloat.div`. -/
theorem PFloat.div_eq (x y : PFloat) : x / y = PFloat.div x y := rfl

/-- The `-` notation on `PFloat` is `PFloat.neg`. -/
theorem PFloat.neg_eq (x : PFloat) : -x = PFloat.neg x := rfl

/-- The embedded tensor mean of a one-element tensor is that element. -/
theorem meanList_singleton (x : ℚ) : meanList [PFloat.val x] = PFloat.val x := by
  unfold meanList psum
  simp only [List.foldl_cons, List.foldl_nil, List.length_cons, List.length_nil]
  show PFloat.val (0 + x) / PFloat.val ((1 : ℕ) : ℚ) = PFloat.val x
  rw [PFloat.val_div_val]
  norm_num

/-- The muSplit KL of the one-layer, batch-1 example `kl = [[2]]` with latent
shape product `1` evaluates to `2`. -/
theorem usplit_kl_example :
    get_kl_divergence_loss_usplit ⟨[[PFloat.val 2]], [[1]]⟩ = PFloat.val 2 := by
  have e1 : PFloat.val 2 / PFloat.val ((([1] : List ℕ).prod : ℕ) : ℚ) = PFloat.val 2 := by
    rw [PFloat.val_div_val]
    norm_num
  show meanList (free_bits_kl
    [[PFloat.val 2 / PFloat.val ((([1] : List ℕ).prod : ℕ) : ℚ)]] 0) = PFloat.val 2
  rw [e1]
  unfold free_bits_kl
  rw [if_pos (by norm_num)]
  show meanList [meanList [PFloat.val 2]] = PFloat.val 2
  rw [meanList_singleton, meanList_singleton]

/-- The denoiSplit KL of the same example, normalized by a one-pixel image,
evaluates to `2`. -/
theorem dsplit_kl_example :
    get_kl_divergence_loss_denoisplit ⟨[[PFloat.val 2]], [[1]]⟩
      (spatialNumel [[[PFloat.val 0]]]) = PFloat.val 2 := by
  unfold get_kl_divergence_loss_denoisplit free_bits_kl
  rw [if_neg (by norm_num)]
  show psum (meanDim0 [[PFloat.clampMin 1 (PFloat.val 2)]]) /
    PFloat.val ((1 : ℕ) : ℚ) = PFloat.val 2
  show psum [meanList [PFloat.val (max 2 1)]] / PFloat.val ((1 : ℕ) : ℚ) = PFloat.val 2
  rw [meanList_singleton]
  show PFloat.val (0 + max 2 1) / PFloat.val ((1 : ℕ) : ℚ) = PFloat.val 2
  rw [PFloat.val_div_val]
  norm_num

set_option maxHeartbeats 1000000 in
/-- Witness for C3: on a batch-1 instance whose likelihood produces NaN, the
reconstruction term is NaN but the KL term is finite (`2` for muSplit, `4`
for the combined loss), so both losses return the record with reconstruction
entry `0.0` instead of `None`. -/
theorem c3_composite_losses_witness :
    (musplit_loss ([[[PFloat.val 0]]], ⟨[[PFloat.val 2]], [[1]]⟩) [[[PFloat.val 0]]]
      { likelihood := fun _ _ => [[[PFloat.nan]]],
        noise_model_likelihood := fun _ _ => [[[PFloat.nan]]],
        gaussian_likelihood := fun _ _ => [[[PFloat.nan]]] }
      = some ⟨PFloat.val 2, PFloat.val 0, PFloat.val 2⟩)
    ∧ (denoisplit_musplit_loss ([[[PFloat.val 0]]], ⟨[[PFloat.val 2]], [[1]]⟩) [[[PFloat.val 0]]]
      { likelihood := fun _ _ => [[[PFloat.nan]]],
        noise_model_likelihood := fun _ _ => [[[PFloat.nan]]],
        gaussian_likelihood := fun _ _ => [[[PFloat.nan]]] }
      = some ⟨PFloat.val 4, PFloat.val 0, PFloat.val 4⟩) := by
  have h := c3_composite_losses_none_iff_nan [[[PFloat.val 0]]] ⟨[[PFloat.val 2]], [[1]]⟩
    [[[PFloat.val 0]]]
    { likelihood := fun _ _ => [[[PFloat.nan]]],
      noise_model_likelihood := fun _ _ => [[[PFloat.nan]]],
      gaussian_likelihood := fun _ _ => [[[PFloat.nan]]] }
    _ _ _ _ _ rfl rfl rfl rfl rfl
  have husplit := usplit_kl_example
  have hdsplit := dsplit_kl_example
  have h1 : (getScal (get_reconstruction_loss [[[PFloat.val 0]]] [[[PFloat.val 0]]]
      (fun _ _ => [[[PFloat.nan]]]) none) .loss * PFloat.val 1).isnan = true := rfl
  have hRg : (reconstruction_loss_musplit_denoisplit [[[PFloat.val 0]]] [[[PFloat.val 0]]]
      (fun _ _ => [[[PFloat.nan]]]) (fun _ _ => [[[PFloat.nan]]]) 1 1).isnan = true := rfl
  refine ⟨?_, ?_⟩
  · have hm := h.2.1 h1 (by rw [husplit]; rfl)
    have hx : PFloat.val (get_kl_weight false (-1) 10 1 0) * PFloat.val 2 = PFloat.val 2 := by
      rw [PFloat.val_mul_val]
      norm_num [get_kl_weight]
    dsimp only at hm
    rw [husplit, hx] at hm
    exact hm
  · have hg := h.2.2.2.2.2 hRg (by
      dsimp only
      rw [if_neg (by simp), hdsplit, husplit]
      rfl)
    dsimp only at hg
    rw [if_neg (by simp), hdsplit, husplit] at hg
    have hy : PFloat.val 1 * (PFloat.val 1 * PFloat.val 2 + PFloat.val 1 * PFloat.val 2) =
        PFloat.val 4 := by
      rw [PFloat.val_mul_val, PFloat.val_add_val, PFloat.val_mul_val]
      norm_num
    rw [hy] at hg
    exact hg

/-- C8 counterexample: the claim asserts all three composite losses fix the
KL term at zero when `non_stochastic` is set, but `musplit_loss` has no
`non_stochastic` branch: on a concrete batch-1 instance with
`non_stochastic = True` it still returns `kl_loss = 2`, not zero. -/
theorem c8_musplit_non_stochastic_counterexample :
    (musplit_loss ([[[PFloat.val 0]]], ⟨[[PFloat.val 2]], [[1]]⟩) [[[PFloat.val 0]]]
      { likelihood := fun _ _ => [[[PFloat.nan]]],
        noise_model_likelihood := fun _ _ => [[[PFloat.nan]]],
        gaussian_likelihood := fun _ _ => [[[PFloat.nan]]],
        non_stochastic := true }
      = some ⟨PFloat.val 2, PFloat.val 0, PFloat.val 2⟩)
    ∧ PFloat.val 2 ≠ PFloat.val 0 := by
  constructor
  · show (if (PFloat.val 0 + PFloat.val (get_kl_weight false (-1) 10 1 0) *
        get_kl_divergence_loss_usplit ⟨[[PFloat.val 2]], [[1]]⟩).isnan = true then none
      else some (LossOutput.mk
        (PFloat.val 0 + PFloat.val (get_kl_weight false (-1) 10 1 0) *
          get_kl_divergence_loss_usplit ⟨[[PFloat.val 2]], [[1]]⟩)
        (PFloat.val 0)
        (PFloat.val (get_kl_weight false (-1) 10 1 0) *
          get_kl_divergence_loss_usplit ⟨[[PFloat.val 2]], [[1]]⟩)))
      = some ⟨PFloat.val 2, PFloat.val 0, PFloat.val 2⟩
    rw [usplit_kl_example]
    norm_num [get_kl_weight, PFloat.val_mul_val, PFloat.val_add_val, PFloat.isnan_val]
  · simp

/-- C8 amended: with `non_stochastic` set, `denoisplit_loss` and
`denoisplit_musplit_loss` return a record whose `kl_loss` is zero (and never
return `None`, since the NaN-replaced reconstruction term plus a zero KL is
finite); `musplit_loss` however has no `non_stochastic` branch and is
entirely independent of the flag. -/
theorem c8_non_stochastic_kl_amended (predictions : Tensor3) (td : TopDownData)
    (targets : Tensor3) (p : LVAELossParameters) (hns : p.non_stochastic = true) :
    (∃ d, denoisplit_loss (predictions, td) targets p = some d ∧
      d.kl_loss = PFloat.val 0)
    ∧ (∃ d, denoisplit_musplit_loss (predictions, td) targets p = some d ∧
      d.kl_loss = PFloat.val 0)
    ∧ (∀ b : Bool, musplit_loss (predictions, td) targets
        { p with non_stochastic := b } = musplit_loss (predictions, td) targets p) := by
  refine ⟨?_, ?_, ?_⟩
  · cases hR : getScal (get_reconstruction_loss predictions targets p.likelihood p.mask)
        .loss * PFloat.val p.reconstruction_weight with
    | nan =>
      exact ⟨⟨PFloat.val 0 + PFloat.val 0, PFloat.val 0, PFloat.val 0⟩,
        by simp [denoisplit_loss, hns, hR, PFloat.isnan_nan, PFloat.val_add_val,
          PFloat.isnan_val], rfl⟩
    | val r =>
      exact ⟨⟨PFloat.val r + PFloat.val 0, PFloat.val r, PFloat.val 0⟩,
        by simp [denoisplit_loss, hns, hR, PFloat.val_add_val, PFloat.isnan_val], rfl⟩
  · cases hR : reconstruction_loss_musplit_denoisplit predictions targets
        p.noise_model_likelihood p.gaussian_likelihood p.denoisplit_weight
        p.musplit_weight with
    | nan =>
      exact ⟨⟨PFloat.val 0 + PFloat.val 0, PFloat.val 0, PFloat.val 0⟩,
        by simp [denoisplit_musplit_loss, hns, hR, PFloat.isnan_nan, PFloat.val_add_val,
          PFloat.isnan_val], rfl⟩
    | val r =>
      exact ⟨⟨PFloat.val r + PFloat.val 0, PFloat.val r, PFloat.val 0⟩,
        by simp [denoisplit_musplit_loss, hns, hR, PFloat.val_add_val, PFloat.isnan_val],
          rfl⟩
  · intro b
    rfl

/-- Witness for C8's amended statement at a concrete batch-1 instance with
`non_stochastic = True`: both denoiSplit-style losses return a record, and
`musplit_loss` is unchanged when the flag is cleared. -/
theorem c8_non_stochastic_witness :
    ((denoisplit_loss ([[[PFloat.val 0]]], ⟨[[PFloat.val 2]], [[1]]⟩) [[[PFloat.val 0]]]
      { likelihood := fun _ _ => [[[PFloat.nan]]],
        noise_model_likelihood := fun _ _ => [[[PFloat.nan]]],
        gaussian_likelihood := fun _ _ => [[[PFloat.nan]]],
        non_stochastic := true }).isSome = true)
    ∧ ((denoisplit_musplit_loss ([[[PFloat.val 0]]], ⟨[[PFloat.val 2]], [[1]]⟩)
      [[[PFloat.val 0]]]
      { likelihood := fun _ _ => [[[PFloat.nan]]],
        noise_model_likelihood := fun _ _ => [[[PFloat.nan]]],
        gaussian_likelihood := fun _ _ => [[[PFloat.nan]]],
        non_stochastic := true }).isSome = true)
    ∧ (musplit_loss ([[[PFloat.val 0]]], ⟨[[PFloat.val 2]], [[1]]⟩) [[[PFloat.val 0]]]
      { likelihood := fun _ _ => [[[PFloat.nan]]],
        noise_model_likelihood := fun _ _ => [[[PFloat.nan]]],
        gaussian_likelihood := fun _ _ => [[[PFloat.nan]]],
        non_stochastic := false } =
      musplit_loss ([[[PFloat.val 0]]], ⟨[[PFloat.val 2]], [[1]]⟩) [[[PFloat.val 0]]]
      { likelihood := fun _ _ => [[[PFloat.nan]]],
        noise_model_likelihood := fun _ _ => [[[PFloat.nan]]],
        gaussian_likelihood := fun _ _ => [[[PFloat.nan]]],
        non_stochastic := true }) := by
  have h := c8_non_stochastic_kl_amended [[[PFloat.val 0]]] ⟨[[PFloat.val 2]], [[1]]⟩
    [[[PFloat.val 0]]]
    { likelihood := fun _ _ => [[[PFloat.nan]]],
      noise_model_likelihood := fun _ _ => [[[PFloat.nan]]],
      gaussian_likelihood := fun _ _ => [[[PFloat.nan]]],
      non_stochastic := true } rfl
  refine ⟨?_, ?_, h.2.2 false⟩
  · obtain ⟨d, hd, _⟩ := h.1
    rw [hd]
    rfl
  · obtain ⟨d, hd, _⟩ := h.2.1
    rw [hd]
    rfl

/-! ### Stable exponential / logarithm claims -/

/-- On the non-positive partition the stable exponential is the true
exponential. -/
theorem stableExp_nonpos (x : ℝ) (hx : x ≤ 0) :
    StableExponential.exp x = Real.exp x := by
  unfold StableExponential.exp pos_f neg_f pos_data neg_data
  rw [if_pos hx, if_neg (not_lt.mpr hx), min_eq_left hx]
  ring

/-- On the positive partition the stable exponential is the linear surrogate
`1 + x`. -/
theorem stableExp_pos (x : ℝ) (hx : 0 < x) :
    StableExponential.exp x = 1 + x := by
  unfold StableExponential.exp pos_f neg_f pos_data neg_data
  rw [if_pos hx, if_neg (not_le.mpr hx), max_eq_left hx.le]
  ring

/-- The stabilized round trip at `-20` exceeds `-14`: the `1e-6` variance
floor dominates `exp(-20)`, so the recovered log-variance is at least
`log(1e-6) > -14`. -/
theorem stableLogVar_get_neg20_gt : (-14 : ℝ) < StableLogVar.get (-20) := by
  have hexp : StableExponential.exp (-20) = Real.exp (-20) :=
    stableExp_nonpos _ (by norm_num)
  have hvar : StableLogVar.get (-20) =
      Real.log (Real.exp (-20) + 1/1000000) := by
    unfold StableLogVar.get StableLogVar.get_var
    rw [if_pos rfl, if_pos rfl, hexp]
  rw [hvar]
  have hpos : (0 : ℝ) < Real.exp (-20) + 1/1000000 := by
    have := Real.exp_pos (-20)
    linarith
  rw [Real.lt_log_iff_exp_lt hpos]
  have h14 : Real.exp (-14) < 1/1000000 := by
    have h1 : (1000000 : ℝ) < Real.exp 14 := by
      have h2 : (2.7182818283 : ℝ) ^ (14 : ℕ) ≤ Real.exp 1 ^ (14 : ℕ) :=
        pow_le_pow_left₀ (by norm_num) Real.exp_one_gt_d9.le 14
      have h3 : (1000000 : ℝ) < (2.7182818283 : ℝ) ^ (14 : ℕ) := by norm_num
      calc (1000000 : ℝ) < (2.7182818283 : ℝ) ^ (14 : ℕ) := h3
      _ ≤ Real.exp 1 ^ (14 : ℕ) := h2
      _ = Real.exp 14 := by rw [Real.exp_one_pow]; norm_num
    rw [Real.exp_neg]
    rw [inv_lt_comm₀ (Real.exp_pos 14) (by norm_num)]
    calc (1/1000000 : ℝ)⁻¹ = 1000000 := by norm_num
    _ < Real.exp 14 := h1
  have := Real.exp_pos (-20)
  linarith

/-- C5 counterexample: the original claim says the `StableLogVar` round trip
recovers `x` within `1e-5` relative tolerance on both partitions; at
`x = -20` (non-positive partition, default `eps = 1e-6`) the round trip
returns `log(exp(-20) + 1e-6) > -14`, an absolute error above `6`, far beyond
the allowed `1e-5 * 20 = 2e-4`. -/
theorem c5_roundtrip_counterexample :
    ¬ (|StableLogVar.get (-20) - (-20)| ≤ (1/100000 : ℝ) * |(-20 : ℝ)|) := by
  intro h
  have hgt := stableLogVar_get_neg20_gt
  have habs : StableLogVar.get (-20) - (-20) ≤ |StableLogVar.get (-20) - (-20)| :=
    le_abs_self _
  have h20 : |(-20 : ℝ)| = 20 := by norm_num
  rw [h20] at h
  linarith

/-- C5 amended: the stable logarithm exactly inverts the stable exponential
for every real input (`x` on the non-positive partition, `log(1 + x)` on the
positive partition), but the `StableLogVar` round trip computes
`log(stable_exp(x) + 1e-6)`, not `x`: the `1e-6` variance floor makes the
recovery only approximate, and at `x = -20` the error exceeds the claimed
`1e-5` relative tolerance (see the counterexample). -/
theorem c5_stable_log_exp_amended :
    (∀ x : ℝ, StableExponential.log x = Real.log (StableExponential.exp x))
    ∧ (∀ x : ℝ, StableExponential.log x = if 0 < x then Real.log (1 + x) else x)
    ∧ (∀ x : ℝ, StableLogVar.get x = Real.log (StableExponential.exp x + 1/1000000)) := by
  refine ⟨?_, ?_, ?_⟩
  · intro x
    by_cases hx : 0 < x
    · rw [stableExp_pos x hx]
      unfold StableExponential.log pos_f neg_f pos_data neg_data
      rw [if_pos hx, if_neg (not_le.mpr hx), max_eq_left hx.le]
      ring
    · have hx' : x ≤ 0 := not_lt.mp hx
      rw [stableExp_nonpos x hx', Real.log_exp]
      unfold StableExponential.log pos_f neg_f pos_data neg_data
      rw [if_pos hx', if_neg hx, min_eq_left hx']
      ring
  · intro x
    by_cases hx : 0 < x
    · rw [if_pos hx]
      unfold StableExponential.log pos_f neg_f pos_data neg_data
      rw [if_pos hx, if_neg (not_le.mpr hx), max_eq_left hx.le]
      ring
    · have hx' : x ≤ 0 := not_lt.mp hx
      rw [if_neg hx]
      unfold StableExponential.log pos_f neg_f pos_data neg_data
      rw [if_pos hx', if_neg hx, min_eq_left hx']
      ring
  · intro x
    unfold StableLogVar.get StableLogVar.get_var
    rw [if_pos rfl, if_pos rfl]

/-! ### Prediction claims -/

/-- Folding pointwise addition of `n` copies of `t` onto `t` scaled by `c`
yields `t` scaled by `c + n`. -/
theorem foldl_zipWith_add_replicate (n : Nat) (c : ℚ) (t : List ℚ) :
    (List.replicate n t).foldl (fun acc s => List.zipWith (fun a b => a + b) acc s)
      (t.map (fun q => c * q)) = t.map (fun q => (c + n) * q) := by
  induction n generalizing c with
  | zero => simp
  | succ k ih =>
    rw [List.replicate_succ, List.foldl_cons]
    have hstep : List.zipWith (fun a b => a + b) (t.map (fun q => c * q)) t =
        t.map (fun q => (c + 1) * q) := by
      rw [List.zipWith_map_left, List.zipWith_same]
      exact List.map_congr_left (fun a _ => by ring)
    rw [hstep, ih]
    refine List.map_congr_left (fun a _ => ?_)
    push_cast
    ring

/-- Folding pointwise addition of `n` copies of `t` onto `t` itself sums to
`t` scaled by `n + 1`. -/
theorem foldl_zipWith_add_replicate_one (n : Nat) (t : List ℚ) :
    (List.replicate n t).foldl (fun acc s => List.zipWith (fun a b => a + b) acc s) t =
      t.map (fun q => ((n : ℚ) + 1) * q) := by
  have h := foldl_zipWith_add_replicate n 1 t
  simp only [one_mul] at h
  rw [show t.map (fun q => q) = t from List.map_id' t] at h
  rw [h]
  exact List.map_congr_left (fun a _ => by ring)

/-- The mean of a stack of `n + 1` identical samples is the sample itself. -/
theorem stackMean_replicate (n : Nat) (t : List ℚ) :
    stackMean (List.replicate (n + 1) t) = t := by
  rw [List.replicate_succ]
  show ((List.replicate n t).foldl
      (fun acc s => List.zipWith (fun a b => a + b) acc s) t).map
      (fun q => q / ((t :: List.replicate n t).length : ℚ)) = t
  rw [foldl_zipWith_add_replicate_one, List.map_map]
  have hlen : ((t :: List.replicate n t).length : ℚ) = (n : ℚ) + 1 := by
    simp [List.length_replicate]
  have hne : ((n : ℚ) + 1) ≠ 0 := by positivity
  refine (List.map_congr_left (fun a _ => ?_)).trans (List.map_id' t)
  simp only [Function.comp, hlen]
  rw [mul_comm, mul_div_assoc, div_self hne, mul_one]


/-- C9: `lvae_predict_mmse` raises an input-validation error for every
`mmse_count <= 0`; for `mmse_count >= 1` it succeeds and the reported
log-variance is the first sample's log-variance only; and with
`mmse_count = 1` the output is exactly that of `lvae_predict_single_sample`
under the same random state. -/
theorem c9_lvae_predict_mmse_spec {α : Type} (model : LVAE)
    (get_mean_lv : List ℚ → List ℚ × Option (List ℚ)) (x : List ℚ) (aux : List α) :
    (∀ m : Int, m ≤ 0 → lvae_predict_mmse model get_mean_lv x aux m =
      Except.error "MMSE count must be greater than zero.")
    ∧ (∀ m : Int, 1 ≤ m → ∃ p : List ℚ,
        lvae_predict_mmse model get_mean_lv x aux m =
          Except.ok ((p, aux),
            ((_pure_lvae_predict_single_sample model get_mean_lv x 0).2).map
              (fun lv => (lv, aux))))
    ∧ (lvae_predict_mmse model get_mean_lv x aux 1 =
        Except.ok (lvae_predict_single_sample model get_mean_lv x aux))
    ∧ (∀ m : Int, 1 ≤ m → (∀ i, model.forward x i = model.forward x 0) →
        lvae_predict_mmse model get_mean_lv x aux m =
          Except.ok (((get_mean_lv (model.forward x 0)).1, aux),
            ((get_mean_lv (model.forward x 0)).2).map (fun lv => (lv, aux)))) := by
  refine ⟨?_, ?_, ?_, ?_⟩
  · intro m hm
    simp only [lvae_predict_mmse]
    rw [if_pos hm]
  · intro m hm
    obtain ⟨n, hn⟩ : ∃ n, m.toNat = n + 1 := ⟨m.toNat - 1, by omega⟩
    refine ⟨stackMean ((List.map
        (fun i => _pure_lvae_predict_single_sample model get_mean_lv x i)
        (0 :: (List.range n).map Nat.succ)).map (fun s => s.1)), ?_⟩
    simp only [lvae_predict_mmse]
    rw [if_neg (by omega), hn, List.range_succ_eq_map]
    simp only [List.map_cons]
  · simp only [lvae_predict_mmse, lvae_predict_single_sample]
    rw [if_neg (by norm_num)]
    have hr : List.range (1 : Int).toNat = [0] := rfl
    rw [hr]
    simp only [List.map_cons, List.map_nil, stackMean, List.foldl_nil]
    norm_num
  · intro m hm hdet
    obtain ⟨n, hn⟩ : ∃ n, m.toNat = n + 1 := ⟨m.toNat - 1, by omega⟩
    simp only [lvae_predict_mmse]
    rw [if_neg (by omega), hn]
    have hpt : ∀ i ∈ List.range (n + 1),
        _pure_lvae_predict_single_sample model get_mean_lv x i =
          get_mean_lv (model.forward x 0) := by
      intro i _
      unfold _pure_lvae_predict_single_sample
      rw [hdet i]
    rw [List.map_congr_left hpt, List.map_const', List.length_range,
      List.replicate_succ]
    simp only [List.map_cons, List.map_replicate]
    rw [← List.replicate_succ, stackMean_replicate]

/-- Witness for C9 at a concrete deterministic model (`forward` always
returns `[5]`) with identity mean/log-variance splitting: `mmse_count = -1`
raises, `mmse_count = 2` succeeds, and `mmse_count = 1` equals the
single-sample prediction. -/
theorem c9_lvae_predict_mmse_witness :
    (lvae_predict_mmse ⟨1, fun _ _ => [(5 : ℚ)]⟩ (fun t => (t, some t)) [5]
        ([] : List Nat) (-1) = Except.error "MMSE count must be greater than zero.")
    ∧ ((lvae_predict_mmse ⟨1, fun _ _ => [(5 : ℚ)]⟩ (fun t => (t, some t)) [5]
        ([] : List Nat) 2).toOption.isSome = true)
    ∧ (lvae_predict_mmse ⟨1, fun _ _ => [(5 : ℚ)]⟩ (fun t => (t, some t)) [5]
        ([] : List Nat) 1 =
      Except.ok (lvae_predict_single_sample ⟨1, fun _ _ => [(5 : ℚ)]⟩
        (fun t => (t, some t)) [5] ([] : List Nat)))
    ∧ (lvae_predict_mmse ⟨1, fun _ _ => [(5 : ℚ)]⟩ (fun t => (t, some t)) [5]
        ([] : List Nat) 2 =
      Except.ok (([(5 : ℚ)], ([] : List Nat)), some ([(5 : ℚ)], ([] : List Nat)))) := by
  have h := c9_lvae_predict_mmse_spec ⟨1, fun _ _ => [(5 : ℚ)]⟩ (fun t => (t, some t))
    [5] ([] : List Nat)
  refine ⟨h.1 (-1) (by norm_num), ?_, h.2.2.1, h.2.2.2 2 (by norm_num) (fun i => rfl)⟩
  obtain ⟨p, hp⟩ := h.2.1 2 (by norm_num)
  rw [hp]
  rfl
